import Mathlib

/-!
Verification of the UHD logging facility (host/include/uhd/utils/log.hpp).

The header provides the severity enumeration, the declarations of the
registry operations (`set_log_level`, `set_logger_level`, `add_logger`),
the inline insertion operators of the internal `uhd::_log::log` statement
object, and the `UHD_LOG_FASTPATH` macro.  The registry implementation
(log.cpp) is not part of the sources; its behaviour is modelled from the
specification where indicated.
-/

/-- Logging severity levels, from `enum severity_level` in log.hpp:
trace=0, debug=1, info=2, warning=3, error=4, fatal=5, off=6. -/
inductive severity_level where
  | trace
  | debug
  | info
  | warning
  | error
  | fatal
  | off
deriving DecidableEq, Repr

/-- Numeric value of a severity level, as assigned by the enum in log.hpp. -/
def severity_level.toNat : severity_level → Nat
  | .trace => 0
  | .debug => 1
  | .info => 2
  | .warning => 3
  | .error => 4
  | .fatal => 5
  | .off => 6

/-- Severity comparison `s >= t` ("admits" in the spec is numeric ordering). -/
def sev_ge (s t : severity_level) : Bool :=
  Nat.ble t.toNat s.toNat

/-- Error taxonomy of the spec: `InvalidConfiguration` for an unparsable
severity, `UnknownBackend` for a threshold set on a non-registered name
(the header documents the latter as `uhd::key_error`). -/
inductive ConfigError where
  | UnknownBackend
  | InvalidConfiguration
deriving DecidableEq, Repr

/-- Modelled from the spec: severity parsing from a canonical name
(`trace`,`debug`,`info`,`warning`,`error`,`fatal`,`off`); any other string
fails with `InvalidConfiguration`.  The parsing code (UHD_LOG_LEVEL
handling in log.cpp) is not under the sources. -/
def parse_log_level (s : String) : Except ConfigError severity_level :=
  if s = "trace" then .ok .trace
  else if s = "debug" then .ok .debug
  else if s = "info" then .ok .info
  else if s = "warning" then .ok .warning
  else if s = "error" then .ok .error
  else if s = "fatal" then .ok .fatal
  else if s = "off" then .ok .off
  else .error .InvalidConfiguration

/-- Modelled from the spec: severity parsing from an integer 0-6; an
out-of-range integer fails with `InvalidConfiguration` rather than
clamping.  The parsing code (log.cpp) is not under the sources. -/
def severity_from_int (n : Int) : Except ConfigError severity_level :=
  if n = 0 then .ok .trace
  else if n = 1 then .ok .debug
  else if n = 2 then .ok .info
  else if n = 3 then .ok .warning
  else if n = 4 then .ok .error
  else if n = 5 then .ok .fatal
  else if n = 6 then .ok .off
  else .error .InvalidConfiguration

/-- The seven canonical severity names accepted by the parser. -/
def canonical_names : List String :=
  ["trace", "debug", "info", "warning", "error", "fatal", "off"]

/-- Log entry record, from `struct logging_info` in log.hpp: timestamp,
severity (`verbosity`), source file, line, component, thread id, message.
Time and thread id are abstracted as naturals. -/
structure logging_info where
  time : Nat
  verbosity : severity_level
  file : String
  line : Nat
  component : String
  thread_id : Nat
  message : String
deriving DecidableEq, Repr

/-- Result of one sink invocation: either success or a failure description.
The sink function type in log.hpp is `log_fn_t`; the spec allows a sink to
fail during dispatch. -/
def sink_result := Except String Unit

/-- A registered backend: its sink function together with its per-backend
threshold (spec: Backend Registration is `(name, sink, threshold)`). -/
structure Backend where
  sink : logging_info → Except String Unit
  level : severity_level

/-- Modelled from the spec: the logging core's registry state — the map
from backend name to (sink, threshold) kept in registration order, plus
the global threshold.  The registry implementation (log.cpp) is not under
the sources; log.hpp only declares its operations. -/
structure Registry where
  backends : List (String × Backend)
  global_level : severity_level

/-- Lookup of a backend by name in the registration list. -/
def lookup_backend : List (String × Backend) → String → Option Backend
  | [], _ => none
  | (k, b) :: rest, name => if k = name then some b else lookup_backend rest name

/-- A backend with threshold `b.level` admits entry `e` under global
threshold `g` iff `e.verbosity >= g` and `e.verbosity >= b.level`
(spec §4.2 `dispatch`). -/
def admits (g : severity_level) (b : Backend) (e : logging_info) : Bool :=
  sev_ge e.verbosity g && sev_ge e.verbosity b.level

/-- Modelled from the spec: `uhd::log::set_log_level` — replaces the
global threshold (the pre-filter applied before every per-backend
threshold); its body (log.cpp) is not under the sources. -/
def set_log_level (reg : Registry) (level : severity_level) : Registry :=
  { reg with global_level := level }

/-- Replace the threshold of the named backend in the registration list. -/
def set_level_list : List (String × Backend) → String → severity_level →
    List (String × Backend)
  | [], _, _ => []
  | (k, b) :: rest, name, level =>
    if k = name then (k, { b with level := level }) :: rest
    else (k, b) :: set_level_list rest name level

/-- Modelled from the spec: `uhd::log::set_logger_level` — sets the
threshold for one named backend, failing with `UnknownBackend` (the header
documents `uhd::key_error`) when the name is not registered; its body
(log.cpp) is not under the sources. -/
def set_logger_level (reg : Registry) (logger : String)
    (level : severity_level) : Except ConfigError Registry :=
  match lookup_backend reg.backends logger with
  | some _ => .ok { reg with backends := set_level_list reg.backends logger level }
  | none => .error .UnknownBackend

/-- The registry state a caller is left with after `set_logger_level`:
the returned registry on success, the unchanged original on error. -/
def run_set_logger_level (reg : Registry) (logger : String)
    (level : severity_level) : Registry :=
  match set_logger_level reg logger level with
  | .ok reg2 => reg2
  | .error _ => reg

/-- Replace the sink function of the named backend, keeping its threshold. -/
def replace_sink : List (String × Backend) → String →
    (logging_info → Except String Unit) → List (String × Backend)
  | [], _, _ => []
  | (k, b) :: rest, name, fn =>
    if k = name then (k, { b with sink := fn }) :: rest
    else (k, b) :: replace_sink rest name fn

/-- Modelled from the spec: `uhd::log::add_logger` — registers or replaces
a sink under `key`; an existing backend keeps its threshold, a new one is
seeded from the current global threshold and appended in registration
order; its body (log.cpp) is not under the sources. -/
def add_logger (reg : Registry) (key : String)
    (fn : logging_info → Except String Unit) : Registry :=
  match lookup_backend reg.backends key with
  | some _ => { reg with backends := replace_sink reg.backends key fn }
  | none =>
    { reg with backends := reg.backends ++ [(key, { sink := fn, level := reg.global_level })] }

/-- Modelled from the spec: `dispatch` walks the backends in registration
order, invokes the sink of every admitting backend synchronously, records
each invocation's outcome, and never propagates a sink failure; the
dispatch code (log.cpp) is not under the sources. -/
def dispatch_list (g : severity_level) (e : logging_info) :
    List (String × Backend) → List (String × Except String Unit)
  | [] => []
  | (k, b) :: rest =>
    if admits g b e then (k, b.sink e) :: dispatch_list g e rest
    else dispatch_list g e rest

/-- Modelled from the spec: `dispatch(entry)` over the whole registry. -/
def dispatch (reg : Registry) (e : logging_info) :
    List (String × Except String Unit) :=
  dispatch_list reg.global_level e reg.backends

/-- Names of the backends whose sinks a dispatch invokes, in invocation
order. -/
def delivered_names (reg : Registry) (e : logging_info) : List String :=
  (dispatch reg e).map Prod.fst

/-- Modelled from the spec: `would_log(component, severity)` — true iff
the global pre-filter passes and some registered backend's threshold
admits the severity; its body (log.cpp) is not under the sources. -/
def would_log (reg : Registry) (severity : severity_level) : Bool :=
  sev_ge severity reg.global_level &&
    reg.backends.any (fun p => sev_ge severity p.2.level)

/-- The internal logging object `uhd::_log::log` of log.hpp: cached entry
metadata `_log_info`, the accumulated stream buffer `_ss`, and the cached
enabled flag `_log_it` (`const bool` in the header). -/
structure log where
  log_info : logging_info
  ss : String
  log_it : Bool

/-- Modelled from the spec: the `uhd::_log::log` constructor (its body,
in log.cpp, is not under the sources) — caches the call-site metadata and
evaluates `would_log` once, storing the boolean in the enabled flag.  The
entry timestamp is taken at destruction, not here. -/
def log.ctor (reg : Registry) (verbosity : severity_level) (file : String)
    (line : Nat) (component : String) (thread_id : Nat) : log :=
  { log_info :=
      { time := 0, verbosity := verbosity, file := file, line := line,
        component := component, thread_id := thread_id, message := "" },
    ss := "",
    log_it := would_log reg verbosity }

/-- The insertion operator of `uhd::_log::log`, from the
`INSERTION_OVERLOAD` definition inline in log.hpp: append the rendered
value to the stream buffer only when `_log_it` holds, else return the
object unchanged. -/
def log.insert (st : log) (val : String) : log :=
  if st.log_it then { st with ss := st.ss ++ val } else st

/-- Modelled from the spec: the entries the `uhd::_log::log` destructor
(log.cpp, not under the sources) hands to `dispatch` — exactly one entry
built from the cached metadata, the current timestamp `now` and the
accumulated buffer when enabled, none otherwise. -/
def log.dtor_calls (st : log) (now : Nat) : List logging_info :=
  if st.log_it then [{ st.log_info with time := now, message := st.ss }] else []

/-- Modelled from the spec: the sink invocations performed when the
`uhd::_log::log` destructor runs against registry `reg` at time `now`. -/
def log.dtor_run (st : log) (reg : Registry) (now : Nat) :
    List (String × Except String Unit) :=
  ((st.dtor_calls now).map (dispatch reg)).flatten

/-- State of the `std::cerr` stream: already-flushed output and the
not-yet-flushed pending buffer. -/
structure CerrState where
  flushed : String
  pending : String
deriving DecidableEq, Repr

/-- Writing to `std::cerr` appends to the pending buffer. -/
def cerr_write (st : CerrState) (s : String) : CerrState :=
  { st with pending := st.pending ++ s }

/-- `std::flush` moves the pending buffer into the flushed output. -/
def cerr_flush (st : CerrState) : CerrState :=
  { flushed := st.flushed ++ st.pending, pending := "" }

/-- The `UHD_LOG_FASTPATH` macro of log.hpp when
`UHD_LOG_FASTPATH_DISABLE` is not defined:
`std::cerr << message << std::flush;` — a direct write-and-flush that
never touches the logging core. -/
def UHD_LOG_FASTPATH (message : String) (st : CerrState) : CerrState :=
  cerr_flush (cerr_write st message)

/-- The `UHD_LOG_FASTPATH` macro of log.hpp when
`UHD_LOG_FASTPATH_DISABLE` is defined: the macro expands to nothing. -/
def UHD_LOG_FASTPATH_disabled (_message : String) (st : CerrState) : CerrState :=
  st

/-- A sink that always succeeds, used as a concrete witness backend. -/
def spy_sink : logging_info → Except String Unit := fun _ => .ok ()

/-- A sink that always fails, used as a concrete witness backend. -/
def failing_sink : logging_info → Except String Unit := fun _ => .error "boom"

/-- A concrete log entry at severity `warning`, used by witnesses. -/
def w_entry : logging_info :=
  { time := 0, verbosity := .warning, file := "x300_impl.cpp", line := 42,
    component := "X300", thread_id := 7, message := "sample message" }

/-- A concrete backend at threshold `info` with an always-succeeding sink,
used by witnesses. -/
def w_backend : Backend :=
  { sink := spy_sink, level := .info }

/-- A concrete registry: one backend "file" at threshold `info`, global
threshold `warning`; used by witnesses. -/
def w_reg : Registry :=
  { backends := [("file", w_backend)],
    global_level := .warning }

/-- A concrete registry with a failing "console" backend registered before
a succeeding "file" backend, both at threshold `trace`; used by witnesses. -/
def w_reg2 : Registry :=
  { backends :=
      [("console", { sink := failing_sink, level := .trace }),
       ("file", { sink := spy_sink, level := .trace })],
    global_level := .trace }

/-- The invocation trace of a dispatch is exactly the admitting backends,
in registration order. -/
theorem dispatch_list_names (g : severity_level) (e : logging_info) :
    ∀ l : List (String × Backend),
      (dispatch_list g e l).map Prod.fst =
        (l.filter (fun p => admits g p.2 e)).map Prod.fst
  | [] => rfl
  | (k, b) :: rest => by
    simp only [dispatch_list, List.filter_cons]
    by_cases h : admits g b e
    · simp only [h, if_pos, List.map_cons, dispatch_list_names g e rest]
    · simp only [eq_self_iff_true, h, if_neg, Bool.false_eq_true,
        not_false_iff, dispatch_list_names g e rest]


/-- Below the global threshold, dispatch invokes no sink at all. -/
theorem dispatch_list_global_none (g : severity_level) (e : logging_info)
    (h : sev_ge e.verbosity g = false) :
    ∀ l : List (String × Backend), dispatch_list g e l = []
  | [] => rfl
  | (k, b) :: rest => by
    have hadm : admits g b e = false := by simp [admits, h]
    simp only [dispatch_list, hadm, Bool.false_eq_true, if_false]
    exact dispatch_list_global_none g e h rest

/-- The invoked backend names form a subset of the registered names. -/
theorem dispatch_list_names_subset (g : severity_level) (e : logging_info)
    (l : List (String × Backend)) :
    (dispatch_list g e l).map Prod.fst ⊆ l.map Prod.fst := by
  rw [dispatch_list_names]
  exact ((List.filter_sublist _).map Prod.fst).subset

/-- With unique backend names, the name found by `lookup_backend` is
invoked by dispatch exactly when its backend admits the entry. -/
theorem mem_dispatch_list_names (g : severity_level) (e : logging_info) :
    ∀ (l : List (String × Backend)) (name : String) (b : Backend),
      (l.map Prod.fst).Nodup → lookup_backend l name = some b →
      (name ∈ (dispatch_list g e l).map Prod.fst ↔ admits g b e = true)
  | [], name, b => by
    intro _ hlk
    exact absurd hlk (by simp [lookup_backend])
  | (k, b') :: rest, name, b => by
    intro hnd hlk
    simp only [List.map_cons, List.nodup_cons] at hnd
    obtain ⟨hk, hnd'⟩ := hnd
    rw [lookup_backend] at hlk
    by_cases hkey : k = name
    · rw [if_pos hkey] at hlk
      injection hlk with hb
      subst hb
      subst hkey
      by_cases hadm : admits g b' e = true
      · simp only [dispatch_list, hadm, if_true, List.map_cons, List.mem_cons]
        simp [hadm]
      · have hnot : k ∉ (dispatch_list g e rest).map Prod.fst :=
          fun hmem => hk (dispatch_list_names_subset g e rest hmem)
        simp only [dispatch_list, hadm, if_false]
        simp [hnot, hadm]
    · rw [if_neg hkey] at hlk
      have ih := mem_dispatch_list_names g e rest name b hnd' hlk
      by_cases hadm : admits g b' e = true
      · simp only [dispatch_list, hadm, if_true, List.map_cons, List.mem_cons]
        constructor
        · rintro (hEq | hmem)
          · exact absurd hEq.symm hkey
          · exact ih.mp hmem
        · exact fun h => Or.inr (ih.mpr h)
      · simp only [dispatch_list, hadm, if_false]
        exact ih

/-- The sink invocation trace of a dispatch, projected to names, is a
sublist of the registered names in registration order. -/
theorem delivered_names_sublist (reg : Registry) (e : logging_info) :
    List.Sublist (delivered_names reg e) (reg.backends.map Prod.fst) := by
  rw [delivered_names, dispatch, dispatch_list_names]
  exact (List.filter_sublist _).map _

/-- Claim C1: a log entry is delivered to a registered backend iff its
severity is at or above both the global threshold and that backend's own
threshold; in particular nothing at all is dispatched when the severity is
below the global threshold. -/
theorem delivery_iff_thresholds (reg : Registry) (e : logging_info)
    (name : String) (b : Backend)
    (hnd : (reg.backends.map Prod.fst).Nodup)
    (hlk : lookup_backend reg.backends name = some b) :
    (name ∈ delivered_names reg e ↔
      (sev_ge e.verbosity reg.global_level = true ∧
       sev_ge e.verbosity b.level = true)) ∧
    (sev_ge e.verbosity reg.global_level = false → dispatch reg e = []) := by
  constructor
  · rw [delivered_names, dispatch,
      mem_dispatch_list_names reg.global_level e reg.backends name b hnd hlk]
    simp [admits]
  · intro hglob
    rw [dispatch]
    exact dispatch_list_global_none reg.global_level e hglob reg.backends

/-- Witness for C1: the single-backend registry `w_reg` evaluated at the
concrete entry `w_entry`. -/
theorem delivery_iff_thresholds_witness :
    ("file" ∈ delivered_names w_reg w_entry ↔
      (sev_ge w_entry.verbosity w_reg.global_level = true ∧
       sev_ge w_entry.verbosity w_backend.level = true)) ∧
    (sev_ge w_entry.verbosity w_reg.global_level = false →
      dispatch w_reg w_entry = []) :=
  delivery_iff_thresholds w_reg w_entry "file" w_backend
    (by simp [w_reg]) rfl

/-- Claim C6: for every dispatched entry the invoked sinks are exactly
those of the admitting backends, in registration order (the trace equals
the in-order filter of the registration list, hence is deterministic in
the registrations), and the invocation order is a sublist of the
registration order. -/
theorem dispatch_registration_order (reg : Registry) (e : logging_info) :
    delivered_names reg e =
      (reg.backends.filter (fun p => admits reg.global_level p.2 e)).map Prod.fst ∧
    List.Sublist (delivered_names reg e) (reg.backends.map Prod.fst) := by
  exact ⟨dispatch_list_names _ _ _, delivered_names_sublist reg e⟩

/-- Claim C7: a sink that fails during dispatch does not prevent delivery
to the remaining backends — every admitting backend is still invoked, the
invocation count equals the number of admitting backends, and `dispatch`
is a total function whose result type carries no error to the caller. -/
theorem sink_failure_isolated (reg : Registry) (e : logging_info)
    (n1 n2 : String) (b1 b2 : Backend) (msg : String)
    (hmem1 : (n1, b1) ∈ reg.backends)
    (hfail : b1.sink e = Except.error msg)
    (hmem2 : (n2, b2) ∈ reg.backends)
    (hadm : admits reg.global_level b2 e = true) :
    n2 ∈ delivered_names reg e ∧
    (dispatch reg e).length =
      (reg.backends.filter (fun p => admits reg.global_level p.2 e)).length := by
  constructor
  · rw [delivered_names, dispatch, dispatch_list_names]
    exact List.mem_map_of_mem _ (List.mem_filter.mpr ⟨hmem2, hadm⟩)
  · have h := congrArg List.length
      (dispatch_list_names reg.global_level e reg.backends)
    simpa [List.length_map, dispatch] using h

/-- Witness for C7: in `w_reg2` the "console" sink fails on `w_entry`, yet
"file" is still delivered and both admitting backends are invoked. -/
theorem sink_failure_isolated_witness :
    "file" ∈ delivered_names w_reg2 w_entry ∧
    (dispatch w_reg2 w_entry).length =
      (w_reg2.backends.filter
        (fun p => admits w_reg2.global_level p.2 w_entry)).length :=
  sink_failure_isolated w_reg2 w_entry "console" "file"
    { sink := failing_sink, level := .trace }
    { sink := spy_sink, level := .trace } "boom"
    (by simp only [w_reg2]; exact List.Mem.head _)
    rfl
    (by simp only [w_reg2]; exact List.Mem.tail _ (List.Mem.head _))
    rfl

/-- Claim C4: setting the threshold of an unregistered backend name fails
synchronously with `UnknownBackend` and the caller's registry state is
unchanged. -/
theorem set_unknown_backend_fails (reg : Registry) (name : String)
    (level : severity_level)
    (h : lookup_backend reg.backends name = none) :
    set_logger_level reg name level = .error .UnknownBackend ∧
    run_set_logger_level reg name level = reg := by
  have h1 : set_logger_level reg name level = .error .UnknownBackend := by
    simp only [set_logger_level, h]
  refine ⟨h1, ?_⟩
  simp only [run_set_logger_level, h1]

/-- Witness for C4: "nope" is not registered in `w_reg`. -/
theorem set_unknown_backend_fails_witness :
    set_logger_level w_reg "nope" .info = .error .UnknownBackend ∧
    run_set_logger_level w_reg "nope" .info = w_reg :=
  set_unknown_backend_fails w_reg "nope" .info rfl

/-- Replacing a sink leaves the registered names unchanged. -/
theorem map_fst_replace_sink (key : String)
    (fn : logging_info → Except String Unit) :
    ∀ l : List (String × Backend),
      (replace_sink l key fn).map Prod.fst = l.map Prod.fst
  | [] => rfl
  | (k, b) :: rest => by
    by_cases h : k = key
    · simp [replace_sink, h]
    · simp [replace_sink, h, map_fst_replace_sink key fn rest]

/-- After a sink replacement the looked-up backend holds the new sink and
the old threshold. -/
theorem lookup_replace_sink (key : String)
    (fn : logging_info → Except String Unit) :
    ∀ (l : List (String × Backend)) (b : Backend),
      lookup_backend l key = some b →
      lookup_backend (replace_sink l key fn) key =
        some { sink := fn, level := b.level }
  | [], b => by
    intro h
    exact absurd h (by simp [lookup_backend])
  | (k, b') :: rest, b => by
    intro h
    by_cases hk : k = key
    · rw [lookup_backend, if_pos hk] at h
      injection h with hb
      subst hb
      simp [replace_sink, hk, lookup_backend]
    · rw [lookup_backend, if_neg hk] at h
      simp [replace_sink, hk, lookup_backend,
        lookup_replace_sink key fn rest b h]

/-- Appending a fresh backend makes it found by lookup. -/
theorem lookup_append_new (key : String) (x : Backend) :
    ∀ l : List (String × Backend),
      lookup_backend l key = none →
      lookup_backend (l ++ [(key, x)]) key = some x
  | [] => by
    intro _
    simp [lookup_backend]
  | (k, b) :: rest => by
    intro h
    by_cases hk : k = key
    · rw [lookup_backend, if_pos hk] at h
      exact Option.noConfusion h
    · rw [lookup_backend, if_neg hk] at h
      simpa [lookup_backend, hk] using lookup_append_new key x rest h

/-- A name on which lookup fails is not among the registered names. -/
theorem lookup_none_not_mem (key : String) :
    ∀ l : List (String × Backend),
      lookup_backend l key = none → key ∉ l.map Prod.fst
  | [] => by
    intro _
    simp
  | (k, b) :: rest => by
    intro h
    by_cases hk : k = key
    · rw [lookup_backend, if_pos hk] at h
      exact Option.noConfusion h
    · rw [lookup_backend, if_neg hk] at h
      simp only [List.map_cons, List.mem_cons, not_or]
      exact ⟨fun he => hk he.symm, lookup_none_not_mem key rest h⟩

/-- Claim C5: `add_logger` keeps at most one sink per name — under an
existing name it replaces the prior sink, keeping the name set and that
backend's threshold; under a new name it appends the backend seeded from
the current global threshold; unique names are preserved and a dispatched
entry reaches a given name at most once. -/
theorem add_logger_unique_replace (reg : Registry) (key : String)
    (fn : logging_info → Except String Unit) :
    (∀ b, lookup_backend reg.backends key = some b →
      ((add_logger reg key fn).backends.map Prod.fst =
         reg.backends.map Prod.fst ∧
       lookup_backend (add_logger reg key fn).backends key =
         some { sink := fn, level := b.level })) ∧
    (lookup_backend reg.backends key = none →
      ((add_logger reg key fn).backends.map Prod.fst =
         reg.backends.map Prod.fst ++ [key] ∧
       lookup_backend (add_logger reg key fn).backends key =
         some { sink := fn, level := reg.global_level })) ∧
    ((reg.backends.map Prod.fst).Nodup →
      (((add_logger reg key fn).backends.map Prod.fst).Nodup ∧
       ∀ e, (delivered_names (add_logger reg key fn) e).count key ≤ 1)) := by
  refine ⟨?_, ?_, ?_⟩
  · intro b hlk
    have heq : (add_logger reg key fn).backends =
        replace_sink reg.backends key fn := by
      simp only [add_logger, hlk]
    rw [heq]
    exact ⟨map_fst_replace_sink key fn reg.backends,
      lookup_replace_sink key fn reg.backends b hlk⟩
  · intro hlk
    have heq : (add_logger reg key fn).backends =
        reg.backends ++ [(key, { sink := fn, level := reg.global_level })] := by
      simp only [add_logger, hlk]
    rw [heq]
    constructor
    · simp
    · exact lookup_append_new key _ reg.backends hlk
  · intro hnd
    have hnd2 : ((add_logger reg key fn).backends.map Prod.fst).Nodup := by
      cases hlk : lookup_backend reg.backends key with
      | some b =>
        have heq : (add_logger reg key fn).backends =
            replace_sink reg.backends key fn := by
          simp only [add_logger, hlk]
        rw [heq, map_fst_replace_sink]
        exact hnd
      | none =>
        have heq : (add_logger reg key fn).backends =
            reg.backends ++ [(key, { sink := fn, level := reg.global_level })] := by
          simp only [add_logger, hlk]
        rw [heq, List.map_append]
        refine List.Nodup.append hnd (List.nodup_singleton key) ?_
        intro x hx hx2
        simp only [List.map_cons, List.map_nil, List.mem_singleton] at hx2
        exact lookup_none_not_mem key reg.backends hlk (hx2 ▸ hx)
    refine ⟨hnd2, fun e => ?_⟩
    have hsub := delivered_names_sublist (add_logger reg key fn) e
    exact List.nodup_iff_count_le_one.mp (hnd2.sublist hsub) key

/-- Witness for C5: re-registering "file" in `w_reg` replaces its sink and
keeps its `info` threshold; registering the fresh "console" seeds its
threshold from the global `warning`. -/
theorem add_logger_unique_replace_witness :
    ((add_logger w_reg "file" failing_sink).backends.map Prod.fst =
       w_reg.backends.map Prod.fst ∧
     lookup_backend (add_logger w_reg "file" failing_sink).backends "file" =
       some { sink := failing_sink, level := w_backend.level }) ∧
    lookup_backend (add_logger w_reg "console" failing_sink).backends "console" =
      some { sink := failing_sink, level := w_reg.global_level } :=
  ⟨(add_logger_unique_replace w_reg "file" failing_sink).1 w_backend rfl,
   ((add_logger_unique_replace w_reg "console" failing_sink).2.1 rfl).2⟩

/-- With the enabled flag clear, any fold of insertions is the identity. -/
theorem foldl_insert_disabled (st : log) (h : st.log_it = false) :
    ∀ vals : List String, vals.foldl log.insert st = st
  | [] => rfl
  | v :: vs => by
    have hstep : log.insert st v = st := by
      simp [log.insert, h]
    rw [List.foldl_cons, hstep]
    exact foldl_insert_disabled st h vs

/-- Claim C2: when a log statement is constructed while `would_log` is
false, its cached enabled flag is clear, every subsequent append is a
no-op on the buffer (from the `INSERTION_OVERLOAD` guard in log.hpp), and
no sink of any registry is ever invoked for that statement. -/
theorem disabled_statement_noop :
    (∀ (st : log) (val : String), st.log_it = false → log.insert st val = st) ∧
    (∀ (reg : Registry) (v : severity_level) (f : String) (ln : Nat)
       (comp : String) (tid : Nat) (vals : List String)
       (reg2 : Registry) (now : Nat),
      would_log reg v = false →
        (vals.foldl log.insert (log.ctor reg v f ln comp tid)).ss = "" ∧
        (vals.foldl log.insert (log.ctor reg v f ln comp tid)).dtor_run
          reg2 now = []) := by
  constructor
  · intro st val h
    simp [log.insert, h]
  · intro reg v f ln comp tid vals reg2 now hwl
    have h0 : (log.ctor reg v f ln comp tid).log_it = false := by
      simp [log.ctor, hwl]
    rw [foldl_insert_disabled _ h0 vals]
    exact ⟨rfl, by simp [log.dtor_run, log.dtor_calls, h0]⟩

/-- Witness for C2: in `w_reg` (global threshold `warning`) a statement at
severity `info` is disabled; two appends leave the buffer empty and its
destruction against `w_reg2` invokes nothing. -/
theorem disabled_statement_noop_witness :
    log.insert (log.ctor w_reg .info "x300_impl.cpp" 10 "X300" 3) "boot" =
      log.ctor w_reg .info "x300_impl.cpp" 10 "X300" 3 ∧
    (["boot", " done"].foldl log.insert
      (log.ctor w_reg .info "x300_impl.cpp" 10 "X300" 3)).ss = "" ∧
    (["boot", " done"].foldl log.insert
      (log.ctor w_reg .info "x300_impl.cpp" 10 "X300" 3)).dtor_run w_reg2 4 = [] :=
  ⟨disabled_statement_noop.1 _ "boot" rfl,
   disabled_statement_noop.2 w_reg .info "x300_impl.cpp" 10 "X300" 3
     ["boot", " done"] w_reg2 4 rfl⟩

/-- Claim C3: on destruction an enabled statement hands exactly one entry
— cached metadata, destruction-time timestamp, accumulated buffer — to
dispatch, a disabled statement hands none, and no statement is ever
dispatched twice. -/
theorem destructor_single_dispatch (st : log) (now : Nat) :
    (st.log_it = true →
      st.dtor_calls now =
        [{ st.log_info with time := now, message := st.ss }]) ∧
    (st.log_it = false → st.dtor_calls now = []) ∧
    (st.dtor_calls now).length ≤ 1 := by
  refine ⟨fun h => by simp [log.dtor_calls, h],
    fun h => by simp [log.dtor_calls, h], ?_⟩
  rw [log.dtor_calls]
  by_cases h : st.log_it = true <;> simp [h]

/-- Witness for C3: an enabled statement built against `w_reg2` dispatches
its single entry; a disabled one built against `w_reg` dispatches none. -/
theorem destructor_single_dispatch_witness :
    ((log.insert (log.ctor w_reg2 .warning "b200.cpp" 7 "B200" 1) "hi").dtor_calls 9 =
      [{ (log.insert (log.ctor w_reg2 .warning "b200.cpp" 7 "B200" 1) "hi").log_info with
          time := 9,
          message := (log.insert (log.ctor w_reg2 .warning "b200.cpp" 7 "B200" 1) "hi").ss }]) ∧
    (log.ctor w_reg .info "b200.cpp" 7 "B200" 1).dtor_calls 9 = [] :=
  ⟨(destructor_single_dispatch
      (log.insert (log.ctor w_reg2 .warning "b200.cpp" 7 "B200" 1) "hi") 9).1 rfl,
   (destructor_single_dispatch (log.ctor w_reg .info "b200.cpp" 7 "B200" 1) 9).2.1 rfl⟩

/-- Claim C10: `UHD_LOG_FASTPATH` writes the message directly to
`std::cerr` and flushes, unconditionally — in particular also when
`would_log` rejects the severity for every backend of some registry — and
the `UHD_LOG_FASTPATH_DISABLE` variant of the macro is a no-op. -/
theorem fastpath_bypasses_core :
    (∀ (message : String) (st : CerrState),
      UHD_LOG_FASTPATH message st =
        { flushed := st.flushed ++ (st.pending ++ message), pending := "" }) ∧
    (∀ (reg : Registry) (sev : severity_level) (message : String)
       (st : CerrState),
      would_log reg sev = false →
        UHD_LOG_FASTPATH message st =
          { flushed := st.flushed ++ (st.pending ++ message), pending := "" }) ∧
    (∀ (message : String) (st : CerrState),
      UHD_LOG_FASTPATH_disabled message st = st) :=
  ⟨fun _ _ => rfl, fun _ _ _ _ _ => rfl, fun _ _ => rfl⟩

/-- Witness for C10: the fastpath write happens even for a severity and
registry for which the logging core would log nothing. -/
theorem fastpath_bypasses_core_witness :
    UHD_LOG_FASTPATH "O" { flushed := "", pending := "" } =
      { flushed := "" ++ ("" ++ "O"), pending := "" } :=
  fastpath_bypasses_core.2.1 w_reg .info "O" { flushed := "", pending := "" } rfl


/-- Claim C8: parsing a severity succeeds exactly for the seven canonical
names and the integers 0 through 6, yielding trace=0, debug=1, info=2,
warning=3, error=4, fatal=5, off=6 (so parsing "warning" equals parsing
the integer 3); any other string or out-of-range integer fails with an
`InvalidConfiguration` error. -/
theorem severity_parsing_spec :
    (∀ s : String, (∃ lvl, parse_log_level s = .ok lvl) ↔ s ∈ canonical_names) ∧
    (∀ s : String, s ∉ canonical_names →
      parse_log_level s = .error .InvalidConfiguration) ∧
    (∀ n : Int, (∃ lvl, severity_from_int n = .ok lvl) ↔ 0 ≤ n ∧ n ≤ 6) ∧
    (∀ n : Int, (n < 0 ∨ 6 < n) →
      severity_from_int n = .error .InvalidConfiguration) ∧
    (∀ lvl : severity_level, severity_from_int lvl.toNat = .ok lvl) ∧
    parse_log_level "warning" = severity_from_int 3 := by
  refine ⟨?_, ?_, ?_, ?_, ?_, rfl⟩
  · intro s
    constructor
    · intro ⟨lvl, h⟩
      by_contra hmem
      simp only [canonical_names, List.mem_cons, List.not_mem_nil, or_false,
        not_or] at hmem
      obtain ⟨h1, h2, h3, h4, h5, h6, h7⟩ := hmem
      simp only [parse_log_level, if_neg h1, if_neg h2, if_neg h3, if_neg h4,
        if_neg h5, if_neg h6, if_neg h7] at h
      exact Except.noConfusion h
    · intro hmem
      simp only [canonical_names, List.mem_cons, List.not_mem_nil,
        or_false] at hmem
      rcases hmem with h | h | h | h | h | h | h <;> subst h <;>
        exact ⟨_, rfl⟩
  · intro s hmem
    simp only [canonical_names, List.mem_cons, List.not_mem_nil, or_false,
      not_or] at hmem
    obtain ⟨h1, h2, h3, h4, h5, h6, h7⟩ := hmem
    simp only [parse_log_level, if_neg h1, if_neg h2, if_neg h3, if_neg h4,
      if_neg h5, if_neg h6, if_neg h7]
  · intro n
    constructor
    · intro ⟨lvl, h⟩
      by_contra hr
      rw [Decidable.not_and_iff_or_not] at hr
      have hne : n ≠ 0 ∧ n ≠ 1 ∧ n ≠ 2 ∧ n ≠ 3 ∧ n ≠ 4 ∧ n ≠ 5 ∧ n ≠ 6 := by
        rcases hr with hr | hr <;> push_neg at hr <;> omega
      obtain ⟨h1, h2, h3, h4, h5, h6, h7⟩ := hne
      simp only [severity_from_int, if_neg h1, if_neg h2, if_neg h3, if_neg h4,
        if_neg h5, if_neg h6, if_neg h7] at h
      exact Except.noConfusion h
    · intro ⟨h0, h6⟩
      interval_cases n <;> exact ⟨_, rfl⟩
  · intro n hr
    have hne : n ≠ 0 ∧ n ≠ 1 ∧ n ≠ 2 ∧ n ≠ 3 ∧ n ≠ 4 ∧ n ≠ 5 ∧ n ≠ 6 := by
      rcases hr with hr | hr <;> omega
    obtain ⟨h1, h2, h3, h4, h5, h6, h7⟩ := hne
    simp only [severity_from_int, if_neg h1, if_neg h2, if_neg h3, if_neg h4,
      if_neg h5, if_neg h6, if_neg h7]
  · intro lvl
    cases lvl <;> rfl

/-- Witness for C8: the hypothesis-bearing conjuncts evaluated at concrete
inputs, via the theorem itself. -/
theorem severity_parsing_spec_witness :
    parse_log_level "nonsense" = .error .InvalidConfiguration ∧
    severity_from_int 7 = .error .InvalidConfiguration := by
  have h := severity_parsing_spec
  exact ⟨h.2.1 "nonsense" (by decide), h.2.2.2.1 7 (by norm_num)⟩